import Mathlib

/-!
Verification of the Scenario and Performance Test Engine.

This file gives a shallow embedding of the core of the engine
(scenario executor, assertion evaluator, stage scheduler, metrics
aggregation, threshold DSL, YAML codec retry logic, load-mode request
worker) and proves or refutes the frozen specification claims about it.

Modelling conventions:
  - JSON values are an inductive type; JSON numbers are rationals
    (IEEE doubles embed into the rationals exactly).
  - Machine integers (u32, u64) are natural numbers.
  - External library behaviour (the regex engine, the serde parsers
    and serializers, the HTTP transport, the CSV file reader) is passed
    in as explicit function parameters, so theorems quantify over it.
  - Rust f64 arithmetic is modelled by exact rational arithmetic with
    the round-half-away-from-zero rounding of f64::round.
-/

/-- Model of serde_json::Value. Objects and maps are association lists;
lookup takes the first matching key, insertion replaces. -/
inductive Json where
  | null : Json
  | bool : Bool → Json
  | num : ℚ → Json
  | str : String → Json
  | arr : List Json → Json
  | obj : List (String × Json) → Json

mutual

/-- Structural equality on JSON values (serde_json PartialEq). -/
def jsonBeq : Json → Json → Bool
  | .null, .null => true
  | .bool a, .bool b => a == b
  | .num a, .num b => a == b
  | .str a, .str b => a == b
  | .arr a, .arr b => jsonBeqList a b
  | .obj a, .obj b => jsonBeqEntries a b
  | _, _ => false

/-- Elementwise equality of JSON arrays. -/
def jsonBeqList : List Json → List Json → Bool
  | [], [] => true
  | a :: at_, b :: bt => jsonBeq a b && jsonBeqList at_ bt
  | _, _ => false

/-- Elementwise equality of JSON object entry lists. -/
def jsonBeqEntries : List (String × Json) → List (String × Json) → Bool
  | [], [] => true
  | a :: at_, b :: bt => a.1 == b.1 && jsonBeq a.2 b.2 && jsonBeqEntries at_ bt
  | _, _ => false

end

/-- Value::is_null. -/
def Json.isNull : Json → Bool
  | .null => true
  | _ => false

/-- Value::as_f64: numbers yield their value, every other variant yields
nothing (serde_json returns None there). -/
def Json.asF64 : Json → Option ℚ
  | .num q => some q
  | _ => none

/-- The variable map (HashMap<String, serde_json::Value>), modelled as an
association list where insertion removes any previous binding. -/
def VarMap : Type := List (String × Json)

/-- Lookup in a variable map: the first matching binding. -/
def vmLookup : VarMap → String → Option Json
  | [], _ => none
  | kv :: t, k => if kv.1 = k then some kv.2 else vmLookup t k

/-- Remove a binding (HashMap::remove). -/
def vmErase : VarMap → String → VarMap
  | [], _ => []
  | kv :: t, k => if kv.1 = k then vmErase t k else kv :: vmErase t k

/-- Insert a binding, replacing any existing one (HashMap::insert). -/
def vmInsert (m : VarMap) (k : String) (v : Json) : VarMap :=
  (k, v) :: vmErase m k

/-- Substring test on character lists (str::contains with a literal). -/
def charsContain (hay needle : List Char) : Bool :=
  match hay with
  | [] => needle.isEmpty
  | _ :: t => needle.isPrefixOf hay || charsContain t needle

/-- Substring test on strings. -/
def strContains (hay needle : String) : Bool :=
  charsContain hay.data needle.data

/-- f64::round: round half away from zero, as an exact operation on ℚ. -/
def rustRound (x : ℚ) : ℤ :=
  if 0 ≤ x then ⌊x + 1/2⌋ else -⌊-x + 1/2⌋

/-- ASCII uppercasing of one character (str::to_uppercase restricted to
the ASCII alphabet used by HTTP method names). -/
def upChar (c : Char) : Char :=
  if 'a' ≤ c ∧ c ≤ 'z' then Char.ofNat (c.toNat - 32) else c

/-- ASCII uppercasing of a string. -/
def toUpperAscii (s : String) : String := ⟨s.data.map upChar⟩

/-!
Assertion evaluator: ScenarioExecutor::compare_values
(src-tauri/src/scenario/executor.rs).

The serde_json canonical rendering of a value (Value::to_string) and the
regex engine (Regex::new + is_match) are external library code and enter
as parameters: `render v` is the canonical JSON serialization of `v`,
`dbg v` is the Debug ({:?}) rendering used inside failure diagnostics,
and `regexMatch pat s` is true when `pat` compiles as a regex and
matches anywhere in `s`.
-/

/-- Rust: the string used for a value in contains and matches — a string
value is used verbatim, anything else is rendered as canonical JSON. -/
def coerceStr (render : Json → String) : Json → String
  | .str s => s
  | v => render v

/-- compare_values from the scenario executor: decide an assertion
operator on (actual, expected) and produce the optional diagnostic. -/
def compare_values (render : Json → String) (dbg : Json → String)
    (regexMatch : String → String → Bool)
    (actual expected : Json) (operator : String) : Bool × Option String :=
  if operator = "equals" then
    let passed := jsonBeq actual expected
    (passed, if passed then none
             else some ("Expected " ++ dbg expected ++ " but got " ++ dbg actual))
  else if operator = "notEquals" then
    let passed := !jsonBeq actual expected
    (passed, if passed then none
             else some ("Expected value to not equal " ++ dbg expected))
  else if operator = "contains" then
    let actualStr := coerceStr render actual
    let expectedStr := coerceStr render expected
    let passed := strContains actualStr expectedStr
    (passed, if passed then none
             else some ("Expected " ++ dbg (.str actualStr) ++ " to contain " ++ dbg (.str expectedStr)))
  else if operator = "matches" then
    let actualStr := coerceStr render actual
    let pat := coerceStr render expected
    let passed := regexMatch pat actualStr
    (passed, if passed then none
             else some ("Expected " ++ dbg (.str actualStr) ++ " to match pattern " ++ dbg (.str pat)))
  else if operator = "greaterThan" then
    let a := (actual.asF64).getD 0
    let e := (expected.asF64).getD 0
    let passed := decide (e < a)
    (passed, if passed then none
             else some ("Expected " ++ toString a ++ " to be greater than " ++ toString e))
  else if operator = "lessThan" then
    let a := (actual.asF64).getD 0
    let e := (expected.asF64).getD 0
    let passed := decide (a < e)
    (passed, if passed then none
             else some ("Expected " ++ toString a ++ " to be less than " ++ toString e))
  else if operator = "exists" then
    let passed := !actual.isNull
    (passed, if passed then none
             else some "Expected value to exist but got null")
  else
    (false, some ("Unknown operator: " ++ operator))

/-- The operator table of spec section 4.3, written from the words of the
specification: equals and notEquals are structural JSON equality;
contains renders both sides to strings and tests substring; matches
renders the observed value to a string and tests the expected value as a
regular expression matching anywhere; greaterThan and lessThan coerce to
floating point with invalid values becoming 0 and compare strictly;
exists passes exactly when the observed value is not JSON null; an
unknown operator fails. -/
def compareSpec (render : Json → String)
    (regexMatch : String → String → Bool)
    (actual expected : Json) (operator : String) : Bool :=
  if operator = "equals" then jsonBeq actual expected
  else if operator = "notEquals" then !jsonBeq actual expected
  else if operator = "contains" then
    strContains (coerceStr render actual) (coerceStr render expected)
  else if operator = "matches" then
    regexMatch (coerceStr render expected) (coerceStr render actual)
  else if operator = "greaterThan" then
    decide (((expected.asF64).getD 0) < ((actual.asF64).getD 0))
  else if operator = "lessThan" then
    decide (((actual.asF64).getD 0) < ((expected.asF64).getD 0))
  else if operator = "exists" then !actual.isNull
  else false

/-!
Stage scheduler: StageScheduler::get_current_vus
(src-tauri/src/scenario/performance/stages.rs). The monotone clock is
replaced by an explicit elapsed-seconds argument.
-/

/-- One ramping stage (performance/types.rs Stage). -/
structure Stage where
  duration_secs : ℕ
  target_vus : ℕ

/-- The interpolated VU value inside one stage: prev + (tgt - prev) *
(stageElapsed / duration), then f64::round and the cast to u32. -/
def ratToVus (prev tgt se d : ℕ) : ℕ :=
  (rustRound ((prev : ℚ) + ((tgt : ℚ) - (prev : ℚ)) * ((se : ℚ) / (d : ℚ)))).toNat

/-- The stage-search loop of get_current_vus: walk the stages carrying the
accumulated start time and the previous target; return the interpolated
value for the stage whose window contains elapsed, or none when past all
stages. -/
def interpVus (elapsed : ℕ) : List Stage → ℕ → ℕ → Option ℕ
  | [], _, _ => none
  | s :: rest, acc, prev =>
    if elapsed < acc + s.duration_secs then
      some (ratToVus prev s.target_vus (elapsed - acc) s.duration_secs)
    else
      interpVus elapsed rest (acc + s.duration_secs) s.target_vus

/-- get_current_vus: 0 for an empty stage list, 0 at elapsed 0, otherwise
the containing-stage interpolation, and the last target past the end. -/
def get_current_vus (stages : List Stage) (elapsed : ℕ) : ℕ :=
  if stages.isEmpty then 0
  else if elapsed = 0 then 0
  else
    match interpVus elapsed stages 0 0 with
    | some v => v
    | none => ((stages.getLast?).map Stage.target_vus).getD 0

/-- Total duration of all stages (StageScheduler::get_total_duration_secs). -/
def totalDurationSecs (stages : List Stage) : ℕ :=
  (stages.map Stage.duration_secs).sum

/-- Modelled from the spec wording of section 4.10: the target VU count is
the linear interpolation from the previous stage target (0 before the
first stage) to the current stage target across the stage window, and
past the end of all stages it is the last stage target. Written as a
walk that consumes the elapsed time stage by stage. -/
def specInterp : List Stage → ℕ → ℕ → ℕ
  | [], _, prev => prev
  | s :: rest, t, prev =>
    if t < s.duration_secs then ratToVus prev s.target_vus t s.duration_secs
    else specInterp rest (t - s.duration_secs) s.target_vus

/-- The spec-side target VU function. -/
def specTargetVus (stages : List Stage) (t : ℕ) : ℕ :=
  specInterp stages t 0

/-!
Metrics aggregation: MetricsCollector::calculate_aggregates and the
percentile helper (src-tauri/src/scenario/performance/metrics.rs).
-/

/-- One recorded request metric (performance/types.rs RequestMetric). -/
structure RequestMetric where
  step_id : String
  step_name : String
  method : String
  url : String
  status : ℕ
  duration_ms : ℕ
  success : Bool
  vu_id : ℕ
  iteration : ℕ
  timestamp : ℤ

/-- Insert a number into a sorted list keeping it sorted (one step of the
ascending sort that Vec::sort performs on the duration vector). -/
def insertNat (a : ℕ) : List ℕ → List ℕ
  | [] => [a]
  | b :: t => if a ≤ b then a :: b :: t else b :: insertNat a t

/-- Ascending sort of the duration vector (Vec::sort). -/
def sortNat : List ℕ → List ℕ
  | [] => []
  | a :: t => insertNat a (sortNat t)

/-- percentile(sorted, p) = sorted[min(round(p/100 * (n-1)), n-1)],
0 on the empty slice. -/
def percentile (sorted : List ℕ) (p : ℚ) : ℕ :=
  if sorted.isEmpty then 0
  else
    let idx := (rustRound (p / 100 * ((sorted.length - 1 : ℕ) : ℚ))).toNat
    sorted.getD (min idx (sorted.length - 1)) 0

/-- Aggregated metrics (performance/types.rs AggregatedMetrics). The
per-step breakdown map is outside the scope of the modelled claims and
is not carried. -/
structure AggregatedMetrics where
  total_requests : ℕ
  failed_requests : ℕ
  error_rate : ℚ
  duration_min : ℕ
  duration_max : ℕ
  duration_avg : ℚ
  duration_med : ℕ
  duration_p90 : ℕ
  duration_p95 : ℕ
  duration_p99 : ℕ
  requests_per_second : ℚ
  iterations_completed : ℕ
  total_duration_ms : ℕ

/-- AggregatedMetrics::default. -/
def AggregatedMetrics.default : AggregatedMetrics :=
  ⟨0, 0, 0, 0, 0, 0, 0, 0, 0, 0, 0, 0, 0⟩

/-- calculate_aggregates. The wall-clock elapsed time and the summed
per-VU iteration counters are read from the collector state and enter
here as the arguments total_duration_ms and iterations_completed. -/
def calculate_aggregates (metrics : List RequestMetric)
    (total_duration_ms : ℕ) (iterations_completed : ℕ) : AggregatedMetrics :=
  if metrics.isEmpty then AggregatedMetrics.default
  else
    let total_requests := metrics.length
    let failed_requests := (metrics.filter (fun m => !m.success)).length
    let error_rate : ℚ :=
      if 0 < total_requests then (failed_requests : ℚ) / (total_requests : ℚ) else 0
    let durations := sortNat (metrics.map RequestMetric.duration_ms)
    let duration_min := (durations.head?).getD 0
    let duration_max := (durations.getLast?).getD 0
    let duration_avg : ℚ :=
      if !durations.isEmpty then ((durations.sum : ℚ) / (durations.length : ℚ)) else 0
    let requests_per_second : ℚ :=
      if 0 < total_duration_ms
      then (total_requests : ℚ) / ((total_duration_ms : ℚ) / 1000) else 0
    { total_requests := total_requests
      failed_requests := failed_requests
      error_rate := error_rate
      duration_min := duration_min
      duration_max := duration_max
      duration_avg := duration_avg
      duration_med := percentile durations 50
      duration_p90 := percentile durations 90
      duration_p95 := percentile durations 95
      duration_p99 := percentile durations 99
      requests_per_second := requests_per_second
      iterations_completed := iterations_completed
      total_duration_ms := total_duration_ms }

/-!
Threshold condition evaluation
(src-tauri/src/scenario/performance/metrics.rs).
-/

/-- f64::EPSILON. -/
def f64Epsilon : ℚ := 1 / 2 ^ 52

/-- compare_values for threshold conditions (f64 comparisons; equality
uses an epsilon band). -/
def compareThreshold (actual : ℚ) (op : String) (expected : ℚ) : Bool :=
  if op = "<" then decide (actual < expected)
  else if op = "<=" then decide (actual ≤ expected)
  else if op = ">" then decide (expected < actual)
  else if op = ">=" then decide (expected ≤ actual)
  else if op = "==" ∨ op = "=" then decide (|actual - expected| < f64Epsilon)
  else if op = "!=" then decide (f64Epsilon ≤ |actual - expected|)
  else false

/-- The percentile arm of parse_duration_condition, after the regex
p\((NN)\) OP V has matched and captured NN, OP and V: NN selects among
med/p90/p95/p99 and every other NN falls back to p95; the returned
triple is (actual value, pass flag, diagnostic message). -/
def parseDurationPercentileArm (p : ℕ) (op : String) (expected : ℚ)
    (m : AggregatedMetrics) : ℚ × Bool × String :=
  let actual : ℚ :=
    if p = 50 then (m.duration_med : ℚ)
    else if p = 90 then (m.duration_p90 : ℚ)
    else if p = 95 then (m.duration_p95 : ℚ)
    else if p = 99 then (m.duration_p99 : ℚ)
    else (m.duration_p95 : ℚ)
  let passed := compareThreshold actual op expected
  (actual, passed, "p(" ++ toString p ++ ") = " ++ toString actual ++ "ms "
    ++ op ++ " " ++ toString expected ++ "ms")

/-!
YAML codec retry logic: parse_scenario_yaml and auto_correct_yaml
(src-tauri/src/scenario/yaml.rs). The serde_yaml typed parse, the
generic parse and the serializer are external library functions and
enter as parameters; Doc is the generic serde_yaml::Value and Sc the
typed ScenarioYaml.
-/

/-- auto_correct_yaml: parse as a generic YAML value and re-emit it
canonically; both library calls can fail. -/
def auto_correct_yaml {Doc : Type}
    (genericParse : String → Except String Doc)
    (emit : Doc → Except String String)
    (content : String) : Except String String :=
  match genericParse content with
  | .error e => .error ("Failed to parse YAML for auto-correction: " ++ e)
  | .ok v =>
    match emit v with
    | .error e => .error ("Failed to serialize corrected YAML: " ++ e)
    | .ok s => .ok s

/-- parse_scenario_yaml: typed parse; on failure auto-correct and retry
the typed parse; the error wrapping of each failing path follows the
source verbatim. -/
def parse_scenario_yaml {Doc Sc : Type}
    (typedParse : String → Except String Sc)
    (genericParse : String → Except String Doc)
    (emit : Doc → Except String String)
    (content : String) : Except String Sc :=
  match typedParse content with
  | .ok sc => .ok sc
  | .error firstError =>
    match auto_correct_yaml genericParse emit content with
    | .ok corrected =>
      match typedParse corrected with
      | .ok sc => .ok sc
      | .error e => .error ("Failed to parse YAML even after auto-correction: " ++ e)
    | .error _ => .error ("Failed to parse YAML: " ++ firstError)

/-!
Scenario executor: ScenarioExecutor::execute_scenario
(src-tauri/src/scenario/executor.rs).

The loop structure, CSV expansion, variable-map mutation, counter
tallying and final run assembly are modelled concretely. The execution
of one step (execute_step: the full HTTP request, extraction and
assertion machinery, or the delay/script/condition/loop arms) interacts
with the outside world, so it enters as an oracle
runStep : call number → step → variable map → outcome,
where the outcome carries the fields of the produced TestStepResult
that the surrounding loop inspects: the status, the optional error and
the optional extracted-variable delta.
-/

/-- Step result status (types.rs StepResultStatus). -/
inductive StepResultStatus where
  | pending | running | passed | failed | skipped | error
deriving DecidableEq

/-- Scenario run status (types.rs ScenarioRunStatus). -/
inductive ScenarioRunStatus where
  | pending | running | passed | failed | stopped | error
deriving DecidableEq

/-- Step type tag (types.rs TestStepType). -/
inductive TestStepType where
  | request | condition | loopStep | delay | script
deriving DecidableEq

/-- CSV expansion descriptor (CsvConfig). -/
structure CsvConfig where
  file_name : String
  quote_char : Option Char
  delimiter : Option Char

/-- Variable extractor (types.rs VariableExtractor). -/
structure VariableExtractor where
  name : String
  source : String
  path : String
  default_value : Option Json

/-- Request step config (types.rs RequestStepConfig), as produced by a
successful serde parse of the step's opaque config value. -/
structure RequestStepConfig where
  endpoint_id : Option String
  url : String
  method : String
  headers : Option (List (String × String))
  params : Option Json
  body : Option Json
  extract_variables : Option (List VariableExtractor)
  with_items_from_csv : Option CsvConfig

/-- A scenario step (types.rs TestScenarioStep). The opaque JSON config
is represented by the outcome of its serde parse as RequestStepConfig:
none when that parse fails. Configs of the other step types are only
read inside execute_step and stay behind the oracle. -/
structure Step where
  id : String
  scenario_id : String
  step_order : ℤ
  step_type : TestStepType
  name : String
  enabled : Bool
  requestConfig : Option RequestStepConfig

/-- One CSV row (HashMap<String, String>). -/
def CsvRow : Type := List (String × String)

/-- The JSON object injected as the item variable for one CSV row. -/
def rowToJson (row : CsvRow) : Json :=
  Json.obj (row.map (fun kv => (kv.1, Json.str kv.2)))

/-- The fields of a TestStepResult that the scenario loop inspects. -/
structure StepOutcome where
  status : StepResultStatus
  error : Option String
  extracted : Option (List (String × Json))

/-- The oracle describing what execute_step returns at the n-th call of
the run, for a given step and current variable map. -/
def RunStepOracle : Type := ℕ → Step → VarMap → StepOutcome

/-- Mutable state threaded through the scenario loop. -/
structure ExecState where
  vars : VarMap
  results : List StepOutcome
  passed : ℕ
  failed : ℕ
  skipped : ℕ
  errorMessage : Option String
  tick : ℕ

/-- The counter tally after one step result (the match on
step_result.status in both loop bodies): passed counts passed, failed
counts failed and error, skipped counts skipped, anything else counts
nowhere; the first failing error message is kept. -/
def tallyOutcome (st : ExecState) (o : StepOutcome) : ExecState :=
  match o.status with
  | .passed => { st with passed := st.passed + 1 }
  | .failed =>
    { st with failed := st.failed + 1
              errorMessage := match st.errorMessage with
                              | none => o.error
                              | some m => some m }
  | .skipped => { st with skipped := st.skipped + 1 }
  | .error =>
    { st with failed := st.failed + 1
              errorMessage := match st.errorMessage with
                              | none => o.error
                              | some m => some m }
  | _ => st

/-- Merge the extracted-variable delta into the variable map. -/
def mergeExtracted (m : VarMap) : Option (List (String × Json)) → VarMap
  | none => m
  | some l => l.foldl (fun acc kv => vmInsert acc kv.1 kv.2) m

/-- The variable map a CSV row execution runs under: the current map
with item set to the row object and index to the row number. -/
def rowVars (m : VarMap) (row : CsvRow) (i : ℕ) : VarMap :=
  vmInsert (vmInsert m "item" (rowToJson row)) "index" (Json.num i)

/-- Execute the step once for one CSV row: inject item and index, run
the step, tally, merge extracted variables, append the result. -/
def runRow (runStep : RunStepOracle) (step : Step) (row : CsvRow) (i : ℕ)
    (st : ExecState) : ExecState :=
  let vars1 := rowVars st.vars row i
  let o := runStep st.tick step vars1
  let st1 := tallyOutcome st o
  { st1 with vars := mergeExtracted vars1 o.extracted
             results := st1.results ++ [o]
             tick := st1.tick + 1 }

/-- The loop over the CSV rows, carrying the enumeration index. -/
def runRows (runStep : RunStepOracle) (step : Step) :
    List CsvRow → ℕ → ExecState → ExecState
  | [], _, st => st
  | r :: rs, i, st => runRows runStep step rs (i + 1) (runRow runStep step r i st)

/-- Execute a step once without CSV expansion: run, tally, merge
extracted variables, append the result. -/
def runNormal (runStep : RunStepOracle) (step : Step) (st : ExecState) : ExecState :=
  let o := runStep st.tick step st.vars
  let st1 := tallyOutcome st o
  { st1 with vars := mergeExtracted st.vars o.extracted
             results := st1.results ++ [o]
             tick := st1.tick + 1 }

/-- The csv_records probe at the top of the loop body: request steps
whose config parses and declares CSV expansion read the CSV file; a read
failure yields no records and sets the run error message. The file
system read (read_csv_to_records) is the csvRead parameter. -/
def csvFetch (csvRead : CsvConfig → Except String (List CsvRow)) (step : Step) :
    Option (List CsvRow) × Option String :=
  if step.step_type = .request then
    match step.requestConfig with
    | some config =>
      match config.with_items_from_csv with
      | some csv =>
        match csvRead csv with
        | .ok records => (some records, none)
        | .error e => (none, some ("Failed to read CSV: " ++ e))
      | none => (none, none)
    | none => (none, none)
  else (none, none)

/-- The body of the main loop for one enabled step: probe for CSV
records, then either run the step once per row and retract item and
index, or run it once. -/
def processStep (csvRead : CsvConfig → Except String (List CsvRow))
    (runStep : RunStepOracle) (st : ExecState) (step : Step) : ExecState :=
  let fetched := csvFetch csvRead step
  let st0 := match fetched.2 with
             | some msg => { st with errorMessage := some msg }
             | none => st
  match fetched.1 with
  | some records =>
    let st1 := runRows runStep step records 0 st0
    { st1 with vars := vmErase (vmErase st1.vars "item") "index" }
  | none => runNormal runStep step st0

/-- Insert a step into a list sorted by step_order (one step of the
stable sort_by_key). -/
def insertByOrder (s : Step) : List Step → List Step
  | [] => [s]
  | b :: t => if s.step_order ≤ b.step_order then s :: b :: t else b :: insertByOrder s t

/-- Sort steps by step_order (sort_by_key on step_order). -/
def sortByOrder : List Step → List Step
  | [] => []
  | s :: t => insertByOrder s (sortByOrder t)

/-- The initial variable map: scenario variables, then baseUrl from the
project base URL or the default. -/
def initVars (scenarioVars : List (String × Json)) (base_url : Option String) : VarMap :=
  vmInsert (scenarioVars.foldl (fun m kv => vmInsert m kv.1 kv.2) ([] : VarMap))
    "baseUrl" (Json.str (base_url.getD "http://localhost:8080"))

/-- The initial loop state. -/
def initState (scenarioVars : List (String × Json)) (base_url : Option String) : ExecState :=
  ⟨initVars scenarioVars base_url, [], 0, 0, 0, none, 0⟩

/-- The run record fields assembled at the end of execute_scenario
(TestScenarioRun, without the identifiers and timestamps). -/
structure RunRecord where
  status : ScenarioRunStatus
  total_steps : ℕ
  passed_steps : ℕ
  failed_steps : ℕ
  skipped_steps : ℕ
  errorMessage : Option String
  results : List StepOutcome
  runVariables : VarMap

/-- execute_scenario: filter enabled steps, sort by step_order, fold the
loop body over them, and assemble the run record; the final status is
failed when the failed counter is positive and passed otherwise, and
total_steps is the length of the collected result list. -/
def execute_scenario (csvRead : CsvConfig → Except String (List CsvRow))
    (runStep : RunStepOracle) (scenarioVars : List (String × Json))
    (base_url : Option String) (steps : List Step) : RunRecord :=
  let enabledSteps := sortByOrder (steps.filter (fun s => s.enabled))
  let fin := enabledSteps.foldl (processStep csvRead runStep)
    (initState scenarioVars base_url)
  { status := if 0 < fin.failed then .failed else .passed
    total_steps := fin.results.length
    passed_steps := fin.passed
    failed_steps := fin.failed
    skipped_steps := fin.skipped
    errorMessage := fin.errorMessage
    results := fin.results
    runVariables := fin.vars }

/-- The number of result records one enabled step contributes to the
run: its CSV row count when it expands, otherwise one. -/
def expansionCount (csvRead : CsvConfig → Except String (List CsvRow)) (step : Step) : ℕ :=
  match (csvFetch csvRead step).1 with
  | some records => records.length
  | none => 1

/-- The extracted-variable names of one step outcome. -/
def extractedNames (o : StepOutcome) : List String :=
  (o.extracted.getD []).map (·.1)

/-- The number of step results whose status is failed or error. -/
def countFE (rs : List StepOutcome) : ℕ :=
  (rs.filter (fun o => o.status = StepResultStatus.failed
                       ∨ o.status = StepResultStatus.error)).length

/-!
Load-mode request worker: execute_request_step and its helpers
(src-tauri/src/scenario/performance/executor.rs), together with the
method dispatch of the scenario-mode request step
(src-tauri/src/scenario/executor.rs execute_request_step) for
comparison. The HTTP transport (reqwest send) is the send oracle: for a
method and URL it yields the response status, body and elapsed time, or
none on transport failure. The regex-driven placeholder interpolation
(resolve_variables) is external regex machinery and enters as the
resolveVars parameter.
-/

/-- Value::get with a string key: object field lookup, none on any
other variant. -/
def jsonGetKey (v : Json) (k : String) : Option Json :=
  match v with
  | .obj entries => (entries.find? (fun kv => kv.1 == k)).map (·.2)
  | _ => none

/-- Value::get with an index: array element, none on any other variant. -/
def jsonGetIdx (v : Json) (i : ℕ) : Option Json :=
  match v with
  | .arr items => items.get? i
  | _ => none

/-- Split one path segment at its bracket: for key[N] return the key
characters and the characters strictly between the bracket and the
final character (the source slices part[bracket+1 .. len-1]). -/
def splitBracket (part : List Char) : Option (List Char × List Char) :=
  match part.findIdx? (· = '[') with
  | none => none
  | some b => some (part.take b, (part.drop (b + 1)).dropLast)

/-- One traversal step of extract_json_path on a path segment. -/
def jsonPathStep (current : Json) (part : String) : Option Json :=
  match splitBracket part.data with
  | none => jsonGetKey current part
  | some (keyChars, idxChars) =>
    let afterKey : Option Json :=
      if keyChars.isEmpty then some current
      else jsonGetKey current (String.mk keyChars)
    match afterKey with
    | none => none
    | some c =>
      match (String.mk idxChars).toNat? with
      | some idx => jsonGetIdx c idx
      | none => some c

/-- extract_json_path: split the path on dots and traverse. -/
def extract_json_path (value : Json) (path : String) : Option Json :=
  (path.splitOn ".").foldlM jsonPathStep value

/-- extract_variable of the load-mode worker: status yields the numeric
status, body traverses the JSON path, any other source yields nothing. -/
def extract_variable_load (e : VariableExtractor) (body : Json) (status : ℕ) : Option Json :=
  if e.source = "status" then some (Json.num status)
  else if e.source = "body" then extract_json_path body e.path
  else none

/-- resolve_url of the performance executor: absolute URLs pass through,
a leading slash joins with the base URL trimmed of trailing slashes
(only when a base URL exists), anything else passes through. -/
def resolve_url_load (url : String) (base_url : Option String) : String :=
  if url.startsWith "http://" ∨ url.startsWith "https://" then url
  else if url.startsWith "/" then
    match base_url with
    | some base => String.mk ((base.data.reverse.dropWhile (· = '/')).reverse) ++ url
    | none => url
  else url

/-- The method match of the load-mode request builder: the five known
methods select their builder, anything else silently falls back to
client.get. -/
def loadBuilderMethod (method : String) : String :=
  if method = "GET" then "GET"
  else if method = "POST" then "POST"
  else if method = "PUT" then "PUT"
  else if method = "DELETE" then "DELETE"
  else if method = "PATCH" then "PATCH"
  else "GET"

/-- The method match of the scenario-mode request step builder: the five
known methods proceed, anything else returns early with an error step
result naming the method (status Error). -/
def scenarioBuilderMethod (method : String) : Except String String :=
  if method = "GET" then .ok "GET"
  else if method = "POST" then .ok "POST"
  else if method = "PUT" then .ok "PUT"
  else if method = "DELETE" then .ok "DELETE"
  else if method = "PATCH" then .ok "PATCH"
  else .error ("Unsupported method: " ++ method)

/-- A transport response: status, body and elapsed milliseconds. -/
structure SendResponse where
  status : ℕ
  body : Json
  elapsed_ms : ℕ

/-- The transport oracle: sent method and URL to response, or none on
transport failure (the elapsed time of a failed send is the second
component). -/
def SendOracle : Type := String → String → Option SendResponse × ℕ

/-- reqwest StatusCode::is_success. -/
def is2xx (status : ℕ) : Bool := 200 ≤ status && status < 300

/-- The load-mode execute_request_step: parse the config (a failure
yields the UNKNOWN metric), resolve the URL, uppercase the method,
build the request through the method match, send, apply the extractors
to a successful response, and assemble the RequestMetric. The returned
pair is the metric and the updated worker-local variable map. -/
def execute_request_step_load (send : SendOracle)
    (resolveVars : String → VarMap → String)
    (step : Step) (vars0 : VarMap) (base_url : Option String)
    (vu_id : ℕ) (iteration : ℕ) (timestamp : ℤ) : RequestMetric × VarMap :=
  match step.requestConfig with
  | none =>
    ({ step_id := step.id, step_name := step.name, method := "UNKNOWN", url := ""
       status := 0, duration_ms := 0, success := false
       vu_id := vu_id, iteration := iteration, timestamp := timestamp }, vars0)
  | some config =>
    let url := resolve_url_load (resolveVars config.url vars0) base_url
    let method := toUpperAscii config.method
    let sendMethod := loadBuilderMethod method
    match send sendMethod url with
    | (some resp, _) =>
      let newVars :=
        match config.extract_variables with
        | none => vars0
        | some extractors =>
          extractors.foldl (fun vars e =>
            match extract_variable_load e resp.body resp.status with
            | some v => vmInsert vars e.name v
            | none => vars) vars0
      ({ step_id := step.id, step_name := step.name, method := method, url := url
         status := resp.status, duration_ms := resp.elapsed_ms
         success := is2xx resp.status
         vu_id := vu_id, iteration := iteration, timestamp := timestamp }, newVars)
    | (none, elapsed) =>
      ({ step_id := step.id, step_name := step.name, method := method, url := url
         status := 0, duration_ms := elapsed, success := false
         vu_id := vu_id, iteration := iteration, timestamp := timestamp }, vars0)

/-!
Concrete fixtures used by counterexamples and witnesses.
-/

/-- The stage list of end-to-end scenario E4: (10s,10), (10s,10), (10s,0). -/
def exampleStages : List Stage := [⟨10, 10⟩, ⟨10, 10⟩, ⟨10, 0⟩]

/-- A request step whose config declares CSV expansion. -/
def cexCsvStep : Step :=
  { id := "s1", scenario_id := "sc1", step_order := 0, step_type := .request
    name := "create item", enabled := true
    requestConfig := some
      { endpoint_id := none, url := "/items", method := "POST"
        headers := none, params := none, body := none
        extract_variables := none
        with_items_from_csv := some { file_name := "data.csv", quote_char := none, delimiter := none } } }

/-- A CSV reader that finds three rows. -/
def cexCsvReadOk : CsvConfig → Except String (List CsvRow) :=
  fun _ => .ok [[("n", "A")], [("n", "B")], [("n", "C")]]

/-- A CSV reader whose file is missing. -/
def cexCsvReadMissing : CsvConfig → Except String (List CsvRow) :=
  fun c => .error ("CSV file not found: " ++ c.file_name)

/-- An execute_step oracle whose step always passes and extracts nothing. -/
def cexRunStepPass : RunStepOracle :=
  fun _ _ _ => ⟨.passed, none, none⟩

/-- An execute_step oracle whose step always passes and extracts one
token variable. -/
def cexRunStepExtract : RunStepOracle :=
  fun _ _ _ => ⟨.passed, none, some [("tok", Json.str "T")]⟩

/-- A request step with an unsupported method name. -/
def cexBrewStep : Step :=
  { id := "s2", scenario_id := "sc1", step_order := 0, step_type := .request
    name := "brew step", enabled := true
    requestConfig := some
      { endpoint_id := none, url := "/brew", method := "brew"
        headers := none, params := none, body := none
        extract_variables := none, with_items_from_csv := none } }

/-- A transport oracle that answers every request with status 200. -/
def cexSendOk : SendOracle :=
  fun _ _ => (some { status := 200, body := Json.null, elapsed_ms := 7 }, 7)

/-- One concrete recorded metric. -/
def cexMetric : RequestMetric :=
  { step_id := "s1", step_name := "create item", method := "POST"
    url := "http://localhost:8080/items", status := 200, duration_ms := 12
    success := true, vu_id := 0, iteration := 1, timestamp := 0 }

/-!
Theorems. First a stock of small lemmas about the model, then one
theorem per claim (with its witness or counterexample).
-/

theorem vmLookup_insert_self (m : VarMap) (k : String) (v : Json) :
    vmLookup (vmInsert m k v) k = some v := by
  simp [vmLookup, vmInsert]

theorem vmLookup_erase_self (m : VarMap) (k : String) :
    vmLookup (vmErase m k) k = none := by
  induction m with
  | nil => rfl
  | cons a t ih =>
    by_cases ha : a.1 = k
    · simpa [vmErase, ha] using ih
    · simpa [vmErase, vmLookup, ha] using ih

theorem vmLookup_erase_ne (m : VarMap) (k k' : String) (h : k' ≠ k) :
    vmLookup (vmErase m k) k' = vmLookup m k' := by
  induction m with
  | nil => rfl
  | cons a t ih =>
    by_cases ha : a.1 = k
    · rw [show vmErase (a :: t) k = vmErase t k by simp [vmErase, ha], ih]
      have hne : a.1 ≠ k' := by rw [ha]; exact Ne.symm h
      simp [vmLookup, hne]
    · rw [show vmErase (a :: t) k = a :: vmErase t k by simp [vmErase, ha]]
      by_cases ha' : a.1 = k'
      · simp [vmLookup, ha']
      · simp only [vmLookup, if_neg ha']
        exact ih

theorem vmLookup_insert_ne (m : VarMap) (k k' : String) (v : Json) (h : k' ≠ k) :
    vmLookup (vmInsert m k v) k' = vmLookup m k' := by
  rw [show vmLookup (vmInsert m k v) k' = vmLookup (vmErase m k) k' by
    simp [vmInsert, vmLookup, Ne.symm h]]
  exact vmLookup_erase_ne m k k' h

/-- Claim C6: compare_values conforms to the operator table of spec
section 4.3 — equals and notEquals are structural JSON equality,
contains is a substring test on the canonical string renderings, matches
tests the expected value as a regular expression against the rendered
observed value, greaterThan and lessThan are strict floating-point
comparisons with invalid values coerced to 0, exists passes exactly when
the observed value is not JSON null, and every unknown operator fails
with a diagnostic naming the operator. -/
theorem claim_C6 (render dbg : Json → String) (regexMatch : String → String → Bool)
    (actual expected : Json) (operator : String) :
    (compare_values render dbg regexMatch actual expected operator).1
      = compareSpec render regexMatch actual expected operator
    ∧ (operator ∉ ["equals", "notEquals", "contains", "matches",
                   "greaterThan", "lessThan", "exists"] →
        (compare_values render dbg regexMatch actual expected operator).2
          = some ("Unknown operator: " ++ operator)) := by
  constructor
  · unfold compare_values compareSpec
    split_ifs <;> rfl
  · intro hop
    simp only [List.mem_cons, List.not_mem_nil, or_false, not_or] at hop
    obtain ⟨h1, h2, h3, h4, h5, h6, h7⟩ := hop
    unfold compare_values
    rw [if_neg h1, if_neg h2, if_neg h3, if_neg h4, if_neg h5, if_neg h6, if_neg h7]

/-- Witness for claim C6 at a concrete unknown operator. -/
theorem claim_C6_witness :
    ("startsWith" ∉ ["equals", "notEquals", "contains", "matches",
                     "greaterThan", "lessThan", "exists"])
    ∧ (compare_values (fun _ => "") (fun _ => "") (fun _ _ => false)
        Json.null Json.null "startsWith").2 = some "Unknown operator: startsWith" :=
  ⟨by decide,
   (claim_C6 (fun _ => "") (fun _ => "") (fun _ _ => false)
      Json.null Json.null "startsWith").2 (by decide)⟩

/-- Claim C10: when a duration threshold condition matches the
percentile form p(NN) OP V with NN outside {50, 90, 95, 99}, the
evaluation falls back to the p95 duration statistic — the observed value
it reports is the p95 and the pass flag is computed from that p95
value. -/
theorem claim_C10 (p : ℕ) (op : String) (expected : ℚ) (m : AggregatedMetrics)
    (h50 : p ≠ 50) (h90 : p ≠ 90) (h95 : p ≠ 95) (h99 : p ≠ 99) :
    parseDurationPercentileArm p op expected m
      = ((m.duration_p95 : ℚ),
         compareThreshold (m.duration_p95 : ℚ) op expected,
         "p(" ++ toString p ++ ") = " ++ toString ((m.duration_p95 : ℕ) : ℚ) ++ "ms "
           ++ op ++ " " ++ toString expected ++ "ms") := by
  unfold parseDurationPercentileArm
  rw [if_neg h50, if_neg h90, if_neg h95, if_neg h99]

/-- Witness for claim C10 at NN = 40. -/
theorem claim_C10_witness :
    ((40 : ℕ) ≠ 50 ∧ (40 : ℕ) ≠ 90 ∧ (40 : ℕ) ≠ 95 ∧ (40 : ℕ) ≠ 99)
    ∧ parseDurationPercentileArm 40 "<" 500 AggregatedMetrics.default
      = ((AggregatedMetrics.default.duration_p95 : ℚ),
         compareThreshold (AggregatedMetrics.default.duration_p95 : ℚ) "<" 500,
         "p(" ++ toString (40 : ℕ) ++ ") = "
           ++ toString ((AggregatedMetrics.default.duration_p95 : ℕ) : ℚ) ++ "ms "
           ++ "<" ++ " " ++ toString (500 : ℚ) ++ "ms") :=
  ⟨by decide,
   claim_C10 40 "<" 500 AggregatedMetrics.default
     (by decide) (by decide) (by decide) (by decide)⟩

/-- Claim C2, counterexample: with a typed parse that fails on every
input (echoing its input as the error), a generic parse and serializer
that succeed and produce the document "corrected", the typed parse fails
on the original input "orig" and on the normalized retry, yet
parse_scenario_yaml returns the wrapped error of the retry — the
returned message does not contain the original error "orig". -/
theorem claim_C2_counterexample :
    ((fun s : String => (Except.error s : Except String Unit)) "orig"
        = .error "orig")
    ∧ ((fun s : String => (Except.error s : Except String Unit)) "corrected"
        = .error "corrected")
    ∧ parse_scenario_yaml (fun s => (.error s : Except String Unit))
        (fun _ => (.ok () : Except String Unit)) (fun _ => .ok "corrected") "orig"
      = .error "Failed to parse YAML even after auto-correction: corrected"
    ∧ strContains "Failed to parse YAML even after auto-correction: corrected" "orig"
      = false :=
  ⟨rfl, rfl, rfl, by decide⟩

/-- Claim C2 as amended: when the first typed parse fails, the original
error is returned only when the auto-correction itself (the generic
parse or the re-serialization) fails; when auto-correction succeeds and
the retried typed parse fails, parse_scenario_yaml returns the retry
error, wrapped in the after-auto-correction message. -/
theorem claim_C2 {Doc Sc : Type}
    (typedParse : String → Except String Sc)
    (genericParse : String → Except String Doc)
    (emit : Doc → Except String String)
    (content firstError : String)
    (h1 : typedParse content = .error firstError) :
    (∀ corrected e2, auto_correct_yaml genericParse emit content = .ok corrected →
        typedParse corrected = .error e2 →
        parse_scenario_yaml typedParse genericParse emit content
          = .error ("Failed to parse YAML even after auto-correction: " ++ e2))
    ∧ (∀ e', auto_correct_yaml genericParse emit content = .error e' →
        parse_scenario_yaml typedParse genericParse emit content
          = .error ("Failed to parse YAML: " ++ firstError)) := by
  constructor
  · intro corrected e2 hcorr hretry
    simp [parse_scenario_yaml, h1, hcorr, hretry]
  · intro e' hfail
    simp [parse_scenario_yaml, h1, hfail]

/-- Witness for claim C2 at the concrete parsers of the counterexample. -/
theorem claim_C2_witness :
    ((fun s : String => (Except.error s : Except String Unit)) "orig" = .error "orig")
    ∧ parse_scenario_yaml (fun s => (.error s : Except String Unit))
        (fun _ => (.ok () : Except String Unit)) (fun _ => .ok "corrected") "orig"
      = .error ("Failed to parse YAML even after auto-correction: " ++ "corrected") :=
  ⟨rfl,
   (claim_C2 (fun s => .error s) (fun _ => .ok ()) (fun _ => .ok "corrected")
      "orig" "orig" rfl).1 "corrected" "corrected" rfl rfl⟩

theorem rustRound_natCast (n : ℕ) : rustRound (n : ℚ) = (n : ℤ) := by
  unfold rustRound
  rw [if_pos (by positivity)]
  rw [show ((n : ℚ) + 1/2) = (n : ℤ) + (1/2 : ℚ) by push_cast; ring]
  rw [Int.floor_int_add]
  norm_num

theorem ratToVus_zero (prev tgt d : ℕ) : ratToVus prev tgt 0 d = prev := by
  unfold ratToVus
  norm_num
  rw [rustRound_natCast, Int.toNat_natCast]

theorem interpVus_none_of_ge (elapsed : ℕ) :
    ∀ (stages : List Stage) (acc prev : ℕ),
      acc + totalDurationSecs stages ≤ elapsed →
      interpVus elapsed stages acc prev = none := by
  intro stages
  induction stages with
  | nil => intro acc prev _; rfl
  | cons s rest ih =>
    intro acc prev h
    simp only [totalDurationSecs, List.map_cons, List.sum_cons] at h
    rw [interpVus, if_neg (by omega)]
    exact ih (acc + s.duration_secs) s.target_vus
      (by simpa [totalDurationSecs] using (by omega :
        acc + s.duration_secs + (rest.map Stage.duration_secs).sum ≤ elapsed))

theorem interpVus_some_spec (elapsed : ℕ) :
    ∀ (stages : List Stage) (acc prev v : ℕ), acc ≤ elapsed →
      interpVus elapsed stages acc prev = some v →
      specInterp stages (elapsed - acc) prev = v := by
  intro stages
  induction stages with
  | nil => intro acc prev v _ h; exact absurd h (by simp [interpVus])
  | cons s rest ih =>
    intro acc prev v hacc h
    rw [interpVus] at h
    by_cases hlt : elapsed < acc + s.duration_secs
    · rw [if_pos hlt] at h
      rw [specInterp, if_pos (by omega)]
      exact Option.some_injective _ h
    · rw [if_neg hlt] at h
      rw [specInterp, if_neg (by omega),
        show elapsed - acc - s.duration_secs = elapsed - (acc + s.duration_secs) by omega]
      exact ih (acc + s.duration_secs) s.target_vus v (by omega) h

theorem interpVus_none_spec (elapsed : ℕ) :
    ∀ (stages : List Stage) (acc prev : ℕ), acc ≤ elapsed →
      interpVus elapsed stages acc prev = none →
      specInterp stages (elapsed - acc) prev
        = ((stages.getLast?).map Stage.target_vus).getD prev := by
  intro stages
  induction stages with
  | nil => intro acc prev _ _; rfl
  | cons s rest ih =>
    intro acc prev hacc h
    rw [interpVus] at h
    by_cases hlt : elapsed < acc + s.duration_secs
    · rw [if_pos hlt] at h; exact absurd h (by simp)
    · rw [if_neg hlt] at h
      rw [specInterp, if_neg (by omega),
        show elapsed - acc - s.duration_secs = elapsed - (acc + s.duration_secs) by omega]
      have := ih (acc + s.duration_secs) s.target_vus (by omega) h
      cases rest with
      | nil => simpa using this
      | cons r rs => simpa [List.getLast?_cons_cons] using this

theorem get_current_vus_eq_spec (stages : List Stage) (t : ℕ)
    (hpos : ∀ s ∈ stages, 0 < s.duration_secs) :
    get_current_vus stages t = specTargetVus stages t := by
  unfold get_current_vus specTargetVus
  by_cases hemp : stages.isEmpty
  · rw [if_pos hemp]
    cases stages with
    | nil => rfl
    | cons s rest => simp at hemp
  · rw [if_neg hemp]
    by_cases ht : t = 0
    · rw [if_pos ht, ht]
      cases stages with
      | nil => rfl
      | cons s rest =>
        have hd : 0 < s.duration_secs := hpos s (by simp)
        rw [specInterp, if_pos hd, ratToVus_zero]
    · rw [if_neg ht]
      cases hcase : interpVus t stages 0 0 with
      | some v =>
        simpa using (interpVus_some_spec t stages 0 0 v (Nat.zero_le t) hcase).symm
      | none =>
        simpa using (interpVus_none_spec t stages 0 0 (Nat.zero_le t) hcase).symm

theorem get_current_vus_past_end (stages : List Stage) (t : ℕ)
    (hne : stages ≠ []) (hpast : totalDurationSecs stages ≤ t)
    (htpos : 0 < t) :
    get_current_vus stages t = ((stages.getLast?).map Stage.target_vus).getD 0 := by
  unfold get_current_vus
  rw [if_neg (by simpa [List.isEmpty_iff] using hne), if_neg (by omega)]
  rw [interpVus_none_of_ge t stages 0 0 (by omega)]

/-- Claim C4: for every stage list (with nonempty stage windows), the
target VU count at elapsed time t is the linear interpolation from the
previous stage target (0 before the first stage) to the containing
stage target across that stage window; past the end of all stages it is
the last stage target; and on the E4 stage list (10s,10), (10s,10),
(10s,0) the targets at t = 0, 5, 10, 15, 25 are 0, 5, 10, 10, 5, and 0
from t = 30 on. -/
theorem claim_C4 (stages : List Stage) (t : ℕ)
    (hpos : ∀ s ∈ stages, 0 < s.duration_secs) :
    get_current_vus stages t = specTargetVus stages t
    ∧ (stages ≠ [] → totalDurationSecs stages ≤ t →
        get_current_vus stages t = ((stages.getLast?).map Stage.target_vus).getD 0)
    ∧ (get_current_vus exampleStages 0 = 0
       ∧ get_current_vus exampleStages 5 = 5
       ∧ get_current_vus exampleStages 10 = 10
       ∧ get_current_vus exampleStages 15 = 10
       ∧ get_current_vus exampleStages 25 = 5
       ∧ ∀ u, 30 ≤ u → get_current_vus exampleStages u = 0) := by
  refine ⟨get_current_vus_eq_spec stages t hpos, ?_, ?_, ?_, ?_, ?_, ?_, ?_⟩
  · intro hne hpast
    have htot : 0 < totalDurationSecs stages := by
      cases stages with
      | nil => exact absurd rfl hne
      | cons s rest =>
        have := hpos s (by simp)
        simp only [totalDurationSecs, List.map_cons, List.sum_cons]
        omega
    exact get_current_vus_past_end stages t hne hpast (by omega)
  · rfl
  · show get_current_vus exampleStages 5 = 5
    norm_num [get_current_vus, exampleStages, interpVus, ratToVus, rustRound] <;> decide
  · show get_current_vus exampleStages 10 = 10
    norm_num [get_current_vus, exampleStages, interpVus, ratToVus, rustRound] <;> decide
  · show get_current_vus exampleStages 15 = 10
    norm_num [get_current_vus, exampleStages, interpVus, ratToVus, rustRound] <;> decide
  · show get_current_vus exampleStages 25 = 5
    norm_num [get_current_vus, exampleStages, interpVus, ratToVus, rustRound] <;> decide
  · intro u hu
    have : get_current_vus exampleStages u
        = ((exampleStages.getLast?).map Stage.target_vus).getD 0 :=
      get_current_vus_past_end exampleStages u (by simp [exampleStages])
        (by simp [totalDurationSecs, exampleStages]; omega) (by omega)
    simpa [exampleStages] using this

/-- Witness for claim C4 on the E4 stage list at t = 5. -/
theorem claim_C4_witness :
    (∀ s ∈ exampleStages, 0 < s.duration_secs)
    ∧ get_current_vus exampleStages 5 = specTargetVus exampleStages 5 :=
  ⟨by decide, (claim_C4 exampleStages 5 (by decide)).1⟩

theorem mem_insertNat (a x : ℕ) (l : List ℕ) :
    x ∈ insertNat a l ↔ x = a ∨ x ∈ l := by
  induction l with
  | nil => simp [insertNat]
  | cons b t ih =>
    by_cases hab : a ≤ b
    · simp [insertNat, hab]
    · simp only [insertNat, if_neg hab, List.mem_cons, ih]
      tauto

theorem length_insertNat (a : ℕ) (l : List ℕ) :
    (insertNat a l).length = l.length + 1 := by
  induction l with
  | nil => rfl
  | cons b t ih =>
    by_cases hab : a ≤ b
    · simp [insertNat, hab]
    · simp [insertNat, hab, ih]

theorem length_sortNat (l : List ℕ) : (sortNat l).length = l.length := by
  induction l with
  | nil => rfl
  | cons a t ih => simp [sortNat, length_insertNat, ih]

theorem mem_sortNat (x : ℕ) (l : List ℕ) : x ∈ sortNat l ↔ x ∈ l := by
  induction l with
  | nil => simp [sortNat]
  | cons a t ih => simp [sortNat, mem_insertNat, ih]

theorem pairwise_insertNat (a : ℕ) (l : List ℕ)
    (h : l.Pairwise (· ≤ ·)) : (insertNat a l).Pairwise (· ≤ ·) := by
  induction l with
  | nil => simp [insertNat]
  | cons b t ih =>
    rcases List.pairwise_cons.mp h with ⟨hb, ht⟩
    by_cases hab : a ≤ b
    · rw [insertNat, if_pos hab]
      refine List.pairwise_cons.mpr ⟨?_, h⟩
      intro x hx
      rcases List.mem_cons.mp hx with rfl | hx
      · exact hab
      · exact le_trans hab (hb x hx)
    · rw [insertNat, if_neg hab]
      refine List.pairwise_cons.mpr ⟨?_, ih ht⟩
      intro x hx
      rcases (mem_insertNat a x t).mp hx with rfl | hx
      · omega
      · exact hb x hx

theorem pairwise_sortNat (l : List ℕ) : (sortNat l).Pairwise (· ≤ ·) := by
  induction l with
  | nil => simp [sortNat]
  | cons a t ih => exact pairwise_insertNat a (sortNat t) ih

theorem pairwise_getD_le (l : List ℕ) (h : l.Pairwise (· ≤ ·))
    (i j : ℕ) (hij : i ≤ j) (hj : j < l.length) :
    l.getD i 0 ≤ l.getD j 0 := by
  rcases Nat.lt_or_ge i j with hlt | hge
  · rw [List.getD_eq_get l 0 (lt_trans hlt hj), List.getD_eq_get l 0 hj]
    exact List.pairwise_iff_get.mp h ⟨i, lt_trans hlt hj⟩ ⟨j, hj⟩ hlt
  · have : i = j := le_antisymm hij hge
    rw [this]

theorem getLastD_eq_getD (l : List ℕ) (h : l ≠ []) :
    (l.getLast?).getD 0 = l.getD (l.length - 1) 0 := by
  have hlen : l.length - 1 < l.length := by
    cases l with
    | nil => exact absurd rfl h
    | cons a t => simp
  rw [List.getLast?_eq_get?, List.getD_eq_get l 0 hlen]
  rw [List.get?_eq_get hlen]
  rfl

theorem rustRound_mono (x y : ℚ) (hx : 0 ≤ x) (hxy : x ≤ y) :
    rustRound x ≤ rustRound y := by
  unfold rustRound
  rw [if_pos hx, if_pos (le_trans hx hxy)]
  exact Int.floor_le_floor (by linarith)

theorem percentile_mono (l : List ℕ) (hl : l.Pairwise (· ≤ ·))
    (hne : l ≠ []) (p q : ℚ) (hp : 0 ≤ p) (hpq : p ≤ q) :
    percentile l p ≤ percentile l q := by
  unfold percentile
  rw [if_neg (by simpa [List.isEmpty_iff] using hne),
      if_neg (by simpa [List.isEmpty_iff] using hne)]
  have hc : (0 : ℚ) ≤ ((l.length - 1 : ℕ) : ℚ) := by positivity
  have hxy : p / 100 * ((l.length - 1 : ℕ) : ℚ) ≤ q / 100 * ((l.length - 1 : ℕ) : ℚ) := by
    gcongr
  have hx : (0 : ℚ) ≤ p / 100 * ((l.length - 1 : ℕ) : ℚ) := by positivity
  have hidx := Int.toNat_le_toNat (rustRound_mono _ _ hx hxy)
  have hlen : l.length - 1 < l.length := by
    cases l with
    | nil => exact absurd rfl hne
    | cons a t => simp
  exact pairwise_getD_le l hl _ _ (min_le_min hidx le_rfl)
    (lt_of_le_of_lt (min_le_right _ _) hlen)

theorem percentile_le_getLastD (l : List ℕ) (hl : l.Pairwise (· ≤ ·))
    (hne : l ≠ []) (p : ℚ) :
    percentile l p ≤ (l.getLast?).getD 0 := by
  unfold percentile
  rw [if_neg (by simpa [List.isEmpty_iff] using hne), getLastD_eq_getD l hne]
  have hlen : l.length - 1 < l.length := by
    cases l with
    | nil => exact absurd rfl hne
    | cons a t => simp
  exact pairwise_getD_le l hl _ _ (min_le_right _ _) hlen

theorem headD_le_of_sorted_mem (l : List ℕ) (hl : l.Pairwise (· ≤ ·))
    (x : ℕ) (hx : x ∈ l) : (l.head?).getD 0 ≤ x := by
  cases l with
  | nil => simp at hx
  | cons a t =>
    rcases List.mem_cons.mp hx with rfl | hx
    · simp
    · simpa using List.rel_of_pairwise_cons hl hx

theorem mem_le_getLastD_of_sorted (l : List ℕ) (hl : l.Pairwise (· ≤ ·))
    (x : ℕ) (hx : x ∈ l) : x ≤ (l.getLast?).getD 0 := by
  induction l with
  | nil => simp at hx
  | cons a t ih =>
    cases t with
    | nil =>
      rcases List.mem_cons.mp hx with rfl | hx
      · simp
      · simp at hx
    | cons b ts =>
      rw [List.getLast?_cons_cons]
      rcases List.pairwise_cons.mp hl with ⟨ha, ht⟩
      rcases List.mem_cons.mp hx with rfl | hx
      · have hmem : (((b :: ts).getLast?).getD 0) ∈ b :: ts := by
          rw [show ((b :: ts).getLast? : Option ℕ) = some ((b :: ts).getLast (by simp))
                from List.getLast?_eq_getLast _ (by simp)]
          exact List.getLast_mem _
        exact le_trans (le_refl x) (ha _ hmem)
      · exact ih ht hx

theorem mul_length_le_sum (l : List ℕ) (lo : ℕ) (h : ∀ x ∈ l, lo ≤ x) :
    lo * l.length ≤ l.sum := by
  induction l with
  | nil => simp
  | cons a t ih =>
    have ha := h a (by simp)
    have ht := ih (fun x hx => h x (List.mem_cons_of_mem a hx))
    simp only [List.length_cons, List.sum_cons]
    calc lo * (t.length + 1) = lo * t.length + lo := by ring
    _ ≤ t.sum + a := by omega
    _ = a + t.sum := by omega

theorem sum_le_mul_length (l : List ℕ) (hi : ℕ) (h : ∀ x ∈ l, x ≤ hi) :
    l.sum ≤ hi * l.length := by
  induction l with
  | nil => simp
  | cons a t ih =>
    have ha := h a (by simp)
    have ht := ih (fun x hx => h x (List.mem_cons_of_mem a hx))
    simp only [List.length_cons, List.sum_cons]
    calc a + t.sum ≤ hi + hi * t.length := by omega
    _ = hi * (t.length + 1) := by ring

/-- Claim C5: for every nonempty multiset of recorded durations, the
aggregated metrics satisfy p50 ≤ p90 ≤ p95 ≤ p99 ≤ max and
min ≤ avg ≤ max, with percentiles computed on the sorted copy as
sorted[round(p/100 * (n-1))]. -/
theorem claim_C5 (metrics : List RequestMetric) (td it : ℕ) (h : metrics ≠ []) :
    (calculate_aggregates metrics td it).duration_med
      ≤ (calculate_aggregates metrics td it).duration_p90
    ∧ (calculate_aggregates metrics td it).duration_p90
      ≤ (calculate_aggregates metrics td it).duration_p95
    ∧ (calculate_aggregates metrics td it).duration_p95
      ≤ (calculate_aggregates metrics td it).duration_p99
    ∧ (calculate_aggregates metrics td it).duration_p99
      ≤ (calculate_aggregates metrics td it).duration_max
    ∧ ((calculate_aggregates metrics td it).duration_min : ℚ)
      ≤ (calculate_aggregates metrics td it).duration_avg
    ∧ (calculate_aggregates metrics td it).duration_avg
      ≤ ((calculate_aggregates metrics td it).duration_max : ℚ) := by
  have hmetr : metrics.isEmpty = false := by
    simpa [List.isEmpty_iff] using h
  have hlen : (sortNat (metrics.map RequestMetric.duration_ms)).length = metrics.length := by
    rw [length_sortNat, List.length_map]
  have hdne : sortNat (metrics.map RequestMetric.duration_ms) ≠ [] := by
    intro hemp
    rw [hemp] at hlen
    exact h (List.length_eq_zero.mp hlen.symm)
  have hl := pairwise_sortNat (metrics.map RequestMetric.duration_ms)
  have hdlen : 0 < (sortNat (metrics.map RequestMetric.duration_ms)).length :=
    List.length_pos.mpr hdne
  unfold calculate_aggregates
  rw [if_neg (by simp [hmetr])]
  dsimp only
  rw [if_pos (by simpa [List.isEmpty_iff] using hdne)]
  refine ⟨percentile_mono _ hl hdne 50 90 (by norm_num) (by norm_num),
          percentile_mono _ hl hdne 90 95 (by norm_num) (by norm_num),
          percentile_mono _ hl hdne 95 99 (by norm_num) (by norm_num),
          percentile_le_getLastD _ hl hdne 99, ?_, ?_⟩
  · rw [le_div_iff₀ (by exact_mod_cast hdlen)]
    have hb := mul_length_le_sum (sortNat (metrics.map RequestMetric.duration_ms))
      (((sortNat (metrics.map RequestMetric.duration_ms)).head?).getD 0)
      (fun x hx => headD_le_of_sorted_mem _ hl x hx)
    exact_mod_cast hb
  · rw [div_le_iff₀ (by exact_mod_cast hdlen)]
    have hb := sum_le_mul_length (sortNat (metrics.map RequestMetric.duration_ms))
      (((sortNat (metrics.map RequestMetric.duration_ms)).getLast?).getD 0)
      (fun x hx => mem_le_getLastD_of_sorted _ hl x hx)
    exact_mod_cast hb

/-- Witness for claim C5 at a one-element metric list. -/
theorem claim_C5_witness :
    ([cexMetric] ≠ [])
    ∧ ((calculate_aggregates [cexMetric] 1000 1).duration_med
        ≤ (calculate_aggregates [cexMetric] 1000 1).duration_p90
       ∧ (calculate_aggregates [cexMetric] 1000 1).duration_p90
        ≤ (calculate_aggregates [cexMetric] 1000 1).duration_p95
       ∧ (calculate_aggregates [cexMetric] 1000 1).duration_p95
        ≤ (calculate_aggregates [cexMetric] 1000 1).duration_p99
       ∧ (calculate_aggregates [cexMetric] 1000 1).duration_p99
        ≤ (calculate_aggregates [cexMetric] 1000 1).duration_max
       ∧ ((calculate_aggregates [cexMetric] 1000 1).duration_min : ℚ)
        ≤ (calculate_aggregates [cexMetric] 1000 1).duration_avg
       ∧ (calculate_aggregates [cexMetric] 1000 1).duration_avg
        ≤ ((calculate_aggregates [cexMetric] 1000 1).duration_max : ℚ)) :=
  ⟨by simp, claim_C5 [cexMetric] 1000 1 (by simp)⟩

theorem tallyOutcome_results (st : ExecState) (o : StepOutcome) :
    (tallyOutcome st o).results = st.results := by
  cases h : o.status <;> simp [tallyOutcome, h]

theorem tallyOutcome_vars (st : ExecState) (o : StepOutcome) :
    (tallyOutcome st o).vars = st.vars := by
  cases h : o.status <;> simp [tallyOutcome, h]

theorem tallyOutcome_tick (st : ExecState) (o : StepOutcome) :
    (tallyOutcome st o).tick = st.tick := by
  cases h : o.status <;> simp [tallyOutcome, h]

theorem tallyOutcome_failed (st : ExecState) (o : StepOutcome) :
    (tallyOutcome st o).failed
      = st.failed + (if o.status = .failed ∨ o.status = .error then 1 else 0) := by
  cases h : o.status <;> simp [tallyOutcome, h]

theorem tallyOutcome_errorMessage_some (st : ExecState) (o : StepOutcome)
    (m : String) (h : st.errorMessage = some m) :
    (tallyOutcome st o).errorMessage = some m := by
  cases ho : o.status <;> simp [tallyOutcome, ho, h]

theorem countFE_append (rs : List StepOutcome) (o : StepOutcome) :
    countFE (rs ++ [o])
      = countFE rs + (if o.status = .failed ∨ o.status = .error then 1 else 0) := by
  unfold countFE
  rw [List.filter_append]
  by_cases ho : o.status = StepResultStatus.failed ∨ o.status = StepResultStatus.error
  · simp [ho]
  · simp [ho]

theorem runRow_results_length (runStep : RunStepOracle) (step : Step)
    (row : CsvRow) (i : ℕ) (st : ExecState) :
    (runRow runStep step row i st).results.length = st.results.length + 1 := by
  simp [runRow, tallyOutcome_results]

theorem runRows_results_length (runStep : RunStepOracle) (step : Step) :
    ∀ (rows : List CsvRow) (i : ℕ) (st : ExecState),
      (runRows runStep step rows i st).results.length
        = st.results.length + rows.length := by
  intro rows
  induction rows with
  | nil => intro i st; simp [runRows]
  | cons r rs ih =>
    intro i st
    rw [runRows, ih (i + 1) (runRow runStep step r i st), runRow_results_length]
    simp; omega

theorem runNormal_results_length (runStep : RunStepOracle) (step : Step) (st : ExecState) :
    (runNormal runStep step st).results.length = st.results.length + 1 := by
  simp [runNormal, tallyOutcome_results]

theorem processStep_results_length (csvRead : CsvConfig → Except String (List CsvRow))
    (runStep : RunStepOracle) (st : ExecState) (step : Step) :
    (processStep csvRead runStep st step).results.length
      = st.results.length + expansionCount csvRead step := by
  unfold processStep expansionCount
  cases h1 : (csvFetch csvRead step).1 with
  | some records =>
    cases h2 : (csvFetch csvRead step).2 with
    | some msg => simp [h1, h2, runRows_results_length]
    | none => simp [h1, h2, runRows_results_length]
  | none =>
    cases h2 : (csvFetch csvRead step).2 with
    | some msg => simp [h1, h2, runNormal_results_length]
    | none => simp [h1, h2, runNormal_results_length]

theorem foldl_results_length (csvRead : CsvConfig → Except String (List CsvRow))
    (runStep : RunStepOracle) :
    ∀ (l : List Step) (st : ExecState),
      ((l.foldl (processStep csvRead runStep) st).results).length
        = st.results.length + (l.map (expansionCount csvRead)).sum := by
  intro l
  induction l with
  | nil => intro st; simp
  | cons s t ih =>
    intro st
    rw [List.foldl_cons, ih, processStep_results_length]
    simp; omega

theorem mem_insertByOrder (s x : Step) (l : List Step) :
    x ∈ insertByOrder s l ↔ x = s ∨ x ∈ l := by
  induction l with
  | nil => simp [insertByOrder]
  | cons b t ih =>
    by_cases hsb : s.step_order ≤ b.step_order
    · simp [insertByOrder, hsb]
    · simp only [insertByOrder, if_neg hsb, List.mem_cons, ih]
      tauto

theorem mem_sortByOrder (x : Step) (l : List Step) :
    x ∈ sortByOrder l ↔ x ∈ l := by
  induction l with
  | nil => simp [sortByOrder]
  | cons a t ih => simp [sortByOrder, mem_insertByOrder, ih]

theorem length_insertByOrder (s : Step) (l : List Step) :
    (insertByOrder s l).length = l.length + 1 := by
  induction l with
  | nil => rfl
  | cons b t ih =>
    by_cases hsb : s.step_order ≤ b.step_order
    · simp [insertByOrder, hsb]
    · simp [insertByOrder, hsb, ih]

theorem length_sortByOrder (l : List Step) :
    (sortByOrder l).length = l.length := by
  induction l with
  | nil => rfl
  | cons a t ih => simp [sortByOrder, length_insertByOrder, ih]

theorem sum_map_ones (f : Step → ℕ) :
    ∀ (l : List Step), (∀ x ∈ l, f x = 1) → (l.map f).sum = l.length := by
  intro l
  induction l with
  | nil => intro _; rfl
  | cons a t ih =>
    intro h
    rw [List.map_cons, List.sum_cons, h a (by simp), ih (fun x hx => h x (by simp [hx]))]
    simp; omega

/-- Claim C1, counterexample: a scenario with one enabled request step
expanded over a three-row CSV yields a run whose total_steps is 3, not
the number of enabled steps (1) — the run counts one step result per
CSV row. -/
theorem claim_C1_counterexample :
    (([cexCsvStep].filter (fun s => s.enabled)).length = 1)
    ∧ (execute_scenario cexCsvReadOk cexRunStepPass [] none [cexCsvStep]).total_steps = 3
    ∧ (execute_scenario cexCsvReadOk cexRunStepPass [] none [cexCsvStep]).total_steps ≠ 1 := by
  refine ⟨rfl, rfl, ?_⟩
  intro h
  rw [show (execute_scenario cexCsvReadOk cexRunStepPass [] none [cexCsvStep]).total_steps
      = 3 from rfl] at h
  exact absurd h (by decide)

/-- Claim C1 as amended: the run record total_steps equals the number of
collected step results — each enabled step contributes its CSV row count
when it expands and one result otherwise; in particular total_steps
equals the number of enabled steps exactly when no step expands. -/
theorem claim_C1 (csvRead : CsvConfig → Except String (List CsvRow))
    (runStep : RunStepOracle) (sv : List (String × Json))
    (bu : Option String) (steps : List Step) :
    (execute_scenario csvRead runStep sv bu steps).total_steps
      = ((sortByOrder (steps.filter (fun s => s.enabled))).map (expansionCount csvRead)).sum
    ∧ ((∀ s ∈ steps.filter (fun s => s.enabled), (csvFetch csvRead s).1 = none) →
        (execute_scenario csvRead runStep sv bu steps).total_steps
          = (steps.filter (fun s => s.enabled)).length) := by
  have hbase : (execute_scenario csvRead runStep sv bu steps).total_steps
      = ((sortByOrder (steps.filter (fun s => s.enabled))).map (expansionCount csvRead)).sum := by
    show (List.foldl (processStep csvRead runStep) (initState sv bu)
        (sortByOrder (List.filter (fun s => s.enabled) steps))).results.length = _
    rw [foldl_results_length]
    simp [initState]
  refine ⟨hbase, ?_⟩
  intro hnone
  rw [hbase, sum_map_ones _ _ ?_, length_sortByOrder]
  intro x hx
  unfold expansionCount
  rw [hnone x ((mem_sortByOrder x _).mp hx)]

/-- Witness for claim C1 on a CSV-free scenario. -/
theorem claim_C1_witness :
    (∀ s ∈ ([cexCsvStep].filter (fun s => s.enabled)),
       (csvFetch cexCsvReadMissing s).1 = none)
    ∧ (execute_scenario cexCsvReadMissing cexRunStepPass [] none [cexCsvStep]).total_steps
        = ([cexCsvStep].filter (fun s => s.enabled)).length :=
  ⟨by intro s hs
      rw [show s = cexCsvStep from ((by simpa using hs :
        s = cexCsvStep ∧ s.enabled = true)).1]
      rfl,
   (claim_C1 cexCsvReadMissing cexRunStepPass [] none [cexCsvStep]).2
     (by intro s hs
         rw [show s = cexCsvStep from ((by simpa using hs :
           s = cexCsvStep ∧ s.enabled = true)).1]
         rfl)⟩

theorem runRow_countFE (runStep : RunStepOracle) (step : Step)
    (row : CsvRow) (i : ℕ) (st : ExecState)
    (h : st.failed = countFE st.results) :
    (runRow runStep step row i st).failed = countFE (runRow runStep step row i st).results := by
  simp only [runRow, tallyOutcome_results, tallyOutcome_failed]
  rw [countFE_append, h]

theorem runRows_countFE (runStep : RunStepOracle) (step : Step) :
    ∀ (rows : List CsvRow) (i : ℕ) (st : ExecState),
      st.failed = countFE st.results →
      (runRows runStep step rows i st).failed
        = countFE (runRows runStep step rows i st).results := by
  intro rows
  induction rows with
  | nil => intro i st h; exact h
  | cons r rs ih =>
    intro i st h
    rw [runRows]
    exact ih (i + 1) _ (runRow_countFE runStep step r i st h)

theorem runNormal_countFE (runStep : RunStepOracle) (step : Step) (st : ExecState)
    (h : st.failed = countFE st.results) :
    (runNormal runStep step st).failed = countFE (runNormal runStep step st).results := by
  simp only [runNormal, tallyOutcome_results, tallyOutcome_failed]
  rw [countFE_append, h]

theorem processStep_countFE (csvRead : CsvConfig → Except String (List CsvRow))
    (runStep : RunStepOracle) (st : ExecState) (step : Step)
    (h : st.failed = countFE st.results) :
    (processStep csvRead runStep st step).failed
      = countFE (processStep csvRead runStep st step).results := by
  unfold processStep
  cases h1 : (csvFetch csvRead step).1 with
  | some records =>
    cases h2 : (csvFetch csvRead step).2 with
    | some msg =>
      simpa [h1, h2] using runRows_countFE runStep step records 0 _ (by simpa using h)
    | none =>
      simpa [h1, h2] using runRows_countFE runStep step records 0 _ (by simpa using h)
  | none =>
    cases h2 : (csvFetch csvRead step).2 with
    | some msg =>
      simpa [h1, h2] using runNormal_countFE runStep step _ (by simpa using h)
    | none =>
      simpa [h1, h2] using runNormal_countFE runStep step _ (by simpa using h)

theorem foldl_countFE (csvRead : CsvConfig → Except String (List CsvRow))
    (runStep : RunStepOracle) :
    ∀ (l : List Step) (st : ExecState),
      st.failed = countFE st.results →
      (List.foldl (processStep csvRead runStep) st l).failed
        = countFE (List.foldl (processStep csvRead runStep) st l).results := by
  intro l
  induction l with
  | nil => intro st h; exact h
  | cons s t ih =>
    intro st h
    rw [List.foldl_cons]
    exact ih _ (processStep_countFE csvRead runStep st s h)

theorem countFE_pos (rs : List StepOutcome) (o : StepOutcome) (ho : o ∈ rs)
    (hp : o.status = StepResultStatus.failed ∨ o.status = StepResultStatus.error) :
    0 < countFE rs := by
  unfold countFE
  exact List.length_pos_of_mem
    (List.mem_filter.mpr ⟨ho, by simp only [decide_eq_true_eq]; exact hp⟩)

theorem countFE_pos_exists (rs : List StepOutcome) (h : 0 < countFE rs) :
    ∃ o ∈ rs, o.status = StepResultStatus.failed ∨ o.status = StepResultStatus.error := by
  unfold countFE at h
  rcases List.exists_mem_of_length_pos h with ⟨o, ho⟩
  rcases List.mem_filter.mp ho with ⟨hmem, hprop⟩
  exact ⟨o, hmem, by simpa using hprop⟩

/-- Claim C7: the final run status is failed exactly when at least one
step result has status failed or error, and passed otherwise; skipped
results never make the run failed. -/
theorem claim_C7 (csvRead : CsvConfig → Except String (List CsvRow))
    (runStep : RunStepOracle) (sv : List (String × Json))
    (bu : Option String) (steps : List Step) :
    ((execute_scenario csvRead runStep sv bu steps).status = .failed
      ↔ ∃ o ∈ (execute_scenario csvRead runStep sv bu steps).results,
          o.status = StepResultStatus.failed ∨ o.status = StepResultStatus.error)
    ∧ ((execute_scenario csvRead runStep sv bu steps).status = .passed
      ∨ (execute_scenario csvRead runStep sv bu steps).status = .failed) := by
  have hinv := foldl_countFE csvRead runStep
    (sortByOrder (steps.filter (fun s => s.enabled))) (initState sv bu)
    (by simp [initState, countFE])
  unfold execute_scenario
  dsimp only
  constructor
  · constructor
    · intro hst
      by_cases hpos : 0 < (List.foldl (processStep csvRead runStep) (initState sv bu)
          (sortByOrder (List.filter (fun s => s.enabled) steps))).failed
      · rw [hinv] at hpos
        exact countFE_pos_exists _ hpos
      · rw [if_neg hpos] at hst
        exact absurd hst (by decide)
    · intro hex
      rcases hex with ⟨o, hmem, hprop⟩
      have hpos : 0 < (List.foldl (processStep csvRead runStep) (initState sv bu)
          (sortByOrder (List.filter (fun s => s.enabled) steps))).failed := by
        rw [hinv]
        exact countFE_pos _ o hmem hprop
      rw [if_pos hpos]
  · by_cases hpos : 0 < (List.foldl (processStep csvRead runStep) (initState sv bu)
        (sortByOrder (List.filter (fun s => s.enabled) steps))).failed
    · right; rw [if_pos hpos]
    · left; rw [if_neg hpos]

/-- Claim C3, counterexample: a scenario whose only step declares CSV
expansion over a missing file finishes with status passed (the step is
executed once without CSV data and succeeds); the run is not marked
error — only the diagnostic error message records the failed read. -/
theorem claim_C3_counterexample :
    (execute_scenario cexCsvReadMissing cexRunStepPass [] none [cexCsvStep]).status
      = ScenarioRunStatus.passed
    ∧ (execute_scenario cexCsvReadMissing cexRunStepPass [] none [cexCsvStep]).status
      ≠ ScenarioRunStatus.error
    ∧ (execute_scenario cexCsvReadMissing cexRunStepPass [] none [cexCsvStep]).errorMessage
      = some "Failed to read CSV: CSV file not found: data.csv" := by
  refine ⟨rfl, ?_, rfl⟩
  intro h
  rw [show (execute_scenario cexCsvReadMissing cexRunStepPass [] none [cexCsvStep]).status
      = ScenarioRunStatus.passed from rfl] at h
  exact absurd h (by decide)

/-- Claim C3 as amended: a missing CSV file does not terminate the run
with status error — the diagnostic is recorded in the run error message,
the step is still executed once without expansion (one step result), and
the final status is decided only by the step outcomes; execute_scenario
never produces the status error at all. -/
theorem claim_C3 (csvRead : CsvConfig → Except String (List CsvRow))
    (runStep : RunStepOracle) (sv : List (String × Json)) (bu : Option String)
    (step : Step) (config : RequestStepConfig) (csv : CsvConfig) (e : String)
    (hen : step.enabled = true) (hty : step.step_type = .request)
    (hcfg : step.requestConfig = some config)
    (hcsv : config.with_items_from_csv = some csv)
    (hread : csvRead csv = .error e) :
    (execute_scenario csvRead runStep sv bu [step]).errorMessage
      = some ("Failed to read CSV: " ++ e)
    ∧ (execute_scenario csvRead runStep sv bu [step]).total_steps = 1
    ∧ (∀ steps' : List Step,
        (execute_scenario csvRead runStep sv bu steps').status = ScenarioRunStatus.passed
        ∨ (execute_scenario csvRead runStep sv bu steps').status = ScenarioRunStatus.failed)
    ∧ (∀ steps' : List Step,
        (execute_scenario csvRead runStep sv bu steps').status ≠ ScenarioRunStatus.error) := by
  have hfetch : csvFetch csvRead step = (none, some ("Failed to read CSV: " ++ e)) := by
    simp [csvFetch, hty, hcfg, hcsv, hread]
  have hfil : List.filter (fun s => s.enabled) [step] = [step] := by simp [hen]
  have hrun : List.foldl (processStep csvRead runStep) (initState sv bu)
      (sortByOrder (List.filter (fun s => s.enabled) [step]))
      = processStep csvRead runStep (initState sv bu) step := by
    rw [hfil]
    rfl
  have hps : processStep csvRead runStep (initState sv bu) step
      = runNormal runStep step
          { initState sv bu with errorMessage := some ("Failed to read CSV: " ++ e) } := by
    unfold processStep
    rw [hfetch]
  refine ⟨?_, ?_, ?_, ?_⟩
  · show (List.foldl (processStep csvRead runStep) (initState sv bu)
      (sortByOrder (List.filter (fun s => s.enabled) [step]))).errorMessage = _
    rw [hrun, hps]
    simp only [runNormal]
    exact tallyOutcome_errorMessage_some _ _ _ rfl
  · show (List.foldl (processStep csvRead runStep) (initState sv bu)
      (sortByOrder (List.filter (fun s => s.enabled) [step]))).results.length = 1
    rw [hrun, hps, runNormal_results_length]
    rfl
  · intro steps'
    unfold execute_scenario
    dsimp only
    by_cases hpos : 0 < (List.foldl (processStep csvRead runStep) (initState sv bu)
        (sortByOrder (List.filter (fun s => s.enabled) steps'))).failed
    · right; rw [if_pos hpos]
    · left; rw [if_neg hpos]
  · intro steps'
    unfold execute_scenario
    dsimp only
    by_cases hpos : 0 < (List.foldl (processStep csvRead runStep) (initState sv bu)
        (sortByOrder (List.filter (fun s => s.enabled) steps'))).failed
    · rw [if_pos hpos]; decide
    · rw [if_neg hpos]; decide

/-- Witness for claim C3 at the concrete missing-file scenario. -/
theorem claim_C3_witness :
    (cexCsvStep.enabled = true
     ∧ cexCsvStep.step_type = TestStepType.request
     ∧ cexCsvReadMissing { file_name := "data.csv", quote_char := none, delimiter := none }
        = .error "CSV file not found: data.csv")
    ∧ (execute_scenario cexCsvReadMissing cexRunStepPass [] none [cexCsvStep]).errorMessage
        = some ("Failed to read CSV: " ++ "CSV file not found: data.csv")
    ∧ (execute_scenario cexCsvReadMissing cexRunStepPass [] none [cexCsvStep]).total_steps = 1 :=
  ⟨⟨rfl, rfl, rfl⟩,
   (claim_C3 cexCsvReadMissing cexRunStepPass [] none cexCsvStep _ _ _
      rfl rfl rfl rfl rfl).1,
   (claim_C3 cexCsvReadMissing cexRunStepPass [] none cexCsvStep _ _ _
      rfl rfl rfl rfl rfl).2.1⟩

theorem vmLookup_foldl_insert (k : String) :
    ∀ (l : List (String × Json)) (m : VarMap), (∀ kv ∈ l, kv.1 ≠ k) →
      vmLookup (l.foldl (fun acc kv => vmInsert acc kv.1 kv.2) m) k = vmLookup m k := by
  intro l
  induction l with
  | nil => intro m _; rfl
  | cons kv t ih =>
    intro m h
    rw [List.foldl_cons, ih _ (fun x hx => h x (by simp [hx])),
      vmLookup_insert_ne _ _ _ _ (Ne.symm (h kv (by simp)))]

theorem vmLookup_mergeExtracted (ex : Option (List (String × Json))) (k : String)
    (h : ∀ kv ∈ ex.getD [], kv.1 ≠ k) (m : VarMap) :
    vmLookup (mergeExtracted m ex) k = vmLookup m k := by
  cases ex with
  | none => rfl
  | some l => exact vmLookup_foldl_insert k l m (by simpa using h)

theorem names_ne (o : StepOutcome) (k : String) (h : k ∉ extractedNames o) :
    ∀ kv ∈ o.extracted.getD [], kv.1 ≠ k := by
  intro kv hkv heq
  exact h (by unfold extractedNames; exact List.mem_map.mpr ⟨kv, hkv, heq⟩)

theorem runNormal_vars_lookup (runStep : RunStepOracle) (step : Step)
    (st : ExecState) (k : String)
    (h : ∀ t v, k ∉ extractedNames (runStep t step v)) :
    vmLookup (runNormal runStep step st).vars k = vmLookup st.vars k := by
  simp only [runNormal]
  exact vmLookup_mergeExtracted _ k (names_ne _ k (h _ _)) _

theorem rowVars_lookup_item (m : VarMap) (row : CsvRow) (i : ℕ) :
    vmLookup (rowVars m row i) "item" = some (rowToJson row) := by
  unfold rowVars
  rw [vmLookup_insert_ne _ _ _ _ (by decide), vmLookup_insert_self]

theorem rowVars_lookup_index (m : VarMap) (row : CsvRow) (i : ℕ) :
    vmLookup (rowVars m row i) "index" = some (Json.num i) := by
  unfold rowVars
  rw [vmLookup_insert_self]

theorem rowVars_lookup_other (m : VarMap) (row : CsvRow) (i : ℕ) (k : String)
    (hki : k ≠ "item") (hkx : k ≠ "index") :
    vmLookup (rowVars m row i) k = vmLookup m k := by
  unfold rowVars
  rw [vmLookup_insert_ne _ _ _ _ hkx, vmLookup_insert_ne _ _ _ _ hki]

theorem runRow_vars_lookup (runStep : RunStepOracle) (step : Step)
    (row : CsvRow) (i : ℕ) (st : ExecState) (k : String)
    (hki : k ≠ "item") (hkx : k ≠ "index")
    (h : ∀ t v, k ∉ extractedNames (runStep t step v)) :
    vmLookup (runRow runStep step row i st).vars k = vmLookup st.vars k := by
  simp only [runRow]
  rw [vmLookup_mergeExtracted _ k (names_ne _ k (h _ _)) _]
  exact rowVars_lookup_other st.vars row i k hki hkx

theorem runRows_vars_lookup (runStep : RunStepOracle) (step : Step) (k : String)
    (hki : k ≠ "item") (hkx : k ≠ "index")
    (h : ∀ t v, k ∉ extractedNames (runStep t step v)) :
    ∀ (rows : List CsvRow) (i : ℕ) (st : ExecState),
      vmLookup (runRows runStep step rows i st).vars k = vmLookup st.vars k := by
  intro rows
  induction rows with
  | nil => intro i st; rfl
  | cons r rs ih =>
    intro i st
    rw [runRows, ih (i + 1) _, runRow_vars_lookup runStep step r i st k hki hkx h]

theorem processStep_item_absent (csvRead : CsvConfig → Except String (List CsvRow))
    (runStep : RunStepOracle) (st : ExecState) (step : Step)
    (hsome : ((csvFetch csvRead step).1).isSome = true) :
    vmLookup (processStep csvRead runStep st step).vars "item" = none
    ∧ vmLookup (processStep csvRead runStep st step).vars "index" = none := by
  cases hf1 : (csvFetch csvRead step).1 with
  | none => rw [hf1] at hsome; simp at hsome
  | some rows =>
    cases hf2 : (csvFetch csvRead step).2 with
    | some msg =>
      simp only [processStep, hf1, hf2]
      constructor
      · rw [vmLookup_erase_ne _ _ _ (by decide), vmLookup_erase_self]
      · rw [vmLookup_erase_self]
    | none =>
      simp only [processStep, hf1, hf2]
      constructor
      · rw [vmLookup_erase_ne _ _ _ (by decide), vmLookup_erase_self]
      · rw [vmLookup_erase_self]

theorem processStep_item_preserved (csvRead : CsvConfig → Except String (List CsvRow))
    (runStep : RunStepOracle) (st : ExecState) (step : Step)
    (hn : ∀ t s v, "item" ∉ extractedNames (runStep t s v)
                   ∧ "index" ∉ extractedNames (runStep t s v))
    (hst : vmLookup st.vars "item" = none ∧ vmLookup st.vars "index" = none) :
    vmLookup (processStep csvRead runStep st step).vars "item" = none
    ∧ vmLookup (processStep csvRead runStep st step).vars "index" = none := by
  by_cases hsome : ((csvFetch csvRead step).1).isSome = true
  · exact processStep_item_absent csvRead runStep st step hsome
  · have hf1 : (csvFetch csvRead step).1 = none := by
      cases hf : (csvFetch csvRead step).1 with
      | none => rfl
      | some rows => rw [hf] at hsome; simp at hsome
    cases hf2 : (csvFetch csvRead step).2 with
    | some msg =>
      simp only [processStep, hf1, hf2]
      constructor
      · rw [runNormal_vars_lookup runStep step _ _ (fun t v => (hn t step v).1)]
        exact hst.1
      · rw [runNormal_vars_lookup runStep step _ _ (fun t v => (hn t step v).2)]
        exact hst.2
    | none =>
      simp only [processStep, hf1, hf2]
      constructor
      · rw [runNormal_vars_lookup runStep step _ _ (fun t v => (hn t step v).1)]
        exact hst.1
      · rw [runNormal_vars_lookup runStep step _ _ (fun t v => (hn t step v).2)]
        exact hst.2

theorem foldl_item_absent (csvRead : CsvConfig → Except String (List CsvRow))
    (runStep : RunStepOracle)
    (hn : ∀ t s v, "item" ∉ extractedNames (runStep t s v)
                   ∧ "index" ∉ extractedNames (runStep t s v)) :
    ∀ (l : List Step) (st : ExecState),
      ((∃ s ∈ l, ((csvFetch csvRead s).1).isSome = true)
       ∨ (vmLookup st.vars "item" = none ∧ vmLookup st.vars "index" = none)) →
      vmLookup (List.foldl (processStep csvRead runStep) st l).vars "item" = none
      ∧ vmLookup (List.foldl (processStep csvRead runStep) st l).vars "index" = none := by
  intro l
  induction l with
  | nil =>
    intro st h
    rcases h with ⟨s, hs, _⟩ | h
    · simp at hs
    · exact h
  | cons s ls ih =>
    intro st h
    rw [List.foldl_cons]
    by_cases hs : ((csvFetch csvRead s).1).isSome = true
    · exact ih _ (Or.inr (processStep_item_absent csvRead runStep st s hs))
    · rcases h with ⟨s', hs', hsome'⟩ | hstm
      · rcases List.mem_cons.mp hs' with rfl | hmem
        · exact absurd hsome' hs
        · exact ih _ (Or.inl ⟨s', hmem, hsome'⟩)
      · exact ih _ (Or.inr (processStep_item_preserved csvRead runStep st s hn hstm))

/-- Claim C8: around a CSV-expanded request step, the item and index
variables are injected for each row execution (the row object and the
row number are visible to the step exactly during that execution) and
retracted afterwards — they are absent from the variable map after the
step and from the final run snapshot (when no extractor reuses those
names); the retraction removes nothing but item and index, so extractor
outputs merged by the row executions are retained, and variables not
named by any extractor are unchanged by the expansion mechanism. -/
theorem claim_C8 (csvRead : CsvConfig → Except String (List CsvRow))
    (runStep : RunStepOracle) (step : Step) (config : RequestStepConfig)
    (csv : CsvConfig) (rows : List CsvRow)
    (hty : step.step_type = .request) (hcfg : step.requestConfig = some config)
    (hcsv : config.with_items_from_csv = some csv)
    (hread : csvRead csv = .ok rows) :
    (∀ st : ExecState,
       vmLookup (processStep csvRead runStep st step).vars "item" = none
       ∧ vmLookup (processStep csvRead runStep st step).vars "index" = none)
    ∧ (∀ (st : ExecState) (k : String), k ≠ "item" → k ≠ "index" →
        vmLookup (processStep csvRead runStep st step).vars k
          = vmLookup (runRows runStep step rows 0 st).vars k)
    ∧ (∀ (st : ExecState) (k : String), k ≠ "item" → k ≠ "index" →
        (∀ t v, k ∉ extractedNames (runStep t step v)) →
        vmLookup (processStep csvRead runStep st step).vars k = vmLookup st.vars k)
    ∧ (∀ (m : VarMap) (row : CsvRow) (i : ℕ),
        vmLookup (rowVars m row i) "item" = some (rowToJson row)
        ∧ vmLookup (rowVars m row i) "index" = some (Json.num i))
    ∧ (∀ (r : CsvRow) (rs : List CsvRow) (i : ℕ) (st : ExecState),
        runRows runStep step (r :: rs) i st
          = runRows runStep step rs (i + 1) (runRow runStep step r i st))
    ∧ (∀ (sv : List (String × Json)) (bu : Option String) (steps : List Step),
        step ∈ steps → step.enabled = true →
        (∀ t s v, "item" ∉ extractedNames (runStep t s v)
                  ∧ "index" ∉ extractedNames (runStep t s v)) →
        vmLookup (execute_scenario csvRead runStep sv bu steps).runVariables "item" = none
        ∧ vmLookup (execute_scenario csvRead runStep sv bu steps).runVariables "index"
            = none) := by
  have hfetch : csvFetch csvRead step = (some rows, none) := by
    simp [csvFetch, hty, hcfg, hcsv, hread]
  have hps : ∀ st : ExecState, processStep csvRead runStep st step
      = { runRows runStep step rows 0 st with
          vars := vmErase (vmErase (runRows runStep step rows 0 st).vars "item") "index" } := by
    intro st
    unfold processStep
    rw [hfetch]
  refine ⟨?_, ?_, ?_, ?_, ?_, ?_⟩
  · intro st
    rw [hps st]
    constructor
    · rw [vmLookup_erase_ne _ _ _ (by decide), vmLookup_erase_self]
    · rw [vmLookup_erase_self]
  · intro st k hki hkx
    rw [hps st, vmLookup_erase_ne _ _ _ hkx, vmLookup_erase_ne _ _ _ hki]
  · intro st k hki hkx hn
    rw [hps st, vmLookup_erase_ne _ _ _ hkx, vmLookup_erase_ne _ _ _ hki]
    exact runRows_vars_lookup runStep step k hki hkx hn rows 0 st
  · intro m row i
    exact ⟨rowVars_lookup_item m row i, rowVars_lookup_index m row i⟩
  · intro r rs i st
    rfl
  · intro sv bu steps hmem hen hn
    show vmLookup (List.foldl (processStep csvRead runStep) (initState sv bu)
        (sortByOrder (List.filter (fun s => s.enabled) steps))).vars "item" = none
      ∧ vmLookup (List.foldl (processStep csvRead runStep) (initState sv bu)
        (sortByOrder (List.filter (fun s => s.enabled) steps))).vars "index" = none
    apply foldl_item_absent csvRead runStep hn
    left
    refine ⟨step, ?_, ?_⟩
    · exact (mem_sortByOrder step _).mpr
        (List.mem_filter.mpr ⟨hmem, by simp [hen]⟩)
    · rw [hfetch]
      rfl

/-- Witness for claim C8 on the concrete three-row CSV scenario with a
token-extracting step oracle. -/
theorem claim_C8_witness :
    (cexCsvStep.step_type = TestStepType.request
     ∧ cexCsvReadOk { file_name := "data.csv", quote_char := none, delimiter := none }
        = .ok [[("n", "A")], [("n", "B")], [("n", "C")]])
    ∧ vmLookup (execute_scenario cexCsvReadOk cexRunStepExtract [] none
        [cexCsvStep]).runVariables "item" = none
    ∧ vmLookup (execute_scenario cexCsvReadOk cexRunStepExtract [] none
        [cexCsvStep]).runVariables "index" = none :=
  ⟨⟨rfl, rfl⟩,
   ((claim_C8 cexCsvReadOk cexRunStepExtract cexCsvStep _ _ _
       rfl rfl rfl rfl).2.2.2.2.2 [] none [cexCsvStep] (by simp) rfl
       (by intro t s v
           exact ⟨(by decide : "item" ∉ (["tok"] : List String)),
                  (by decide : "index" ∉ (["tok"] : List String))⟩)).1,
   ((claim_C8 cexCsvReadOk cexRunStepExtract cexCsvStep _ _ _
       rfl rfl rfl rfl).2.2.2.2.2 [] none [cexCsvStep] (by simp) rfl
       (by intro t s v
           exact ⟨(by decide : "item" ∉ (["tok"] : List String)),
                  (by decide : "index" ∉ (["tok"] : List String))⟩)).2⟩

/-- Claim C9: in load mode a request step whose uppercased method is not
one of GET/POST/PUT/DELETE/PATCH raises no input error — the worker
silently issues a GET to the resolved URL and records a normal metric
(carrying the configured method name and the real response status),
while scenario mode returns an error result naming the method for the
same config. -/
theorem claim_C9 (send : SendOracle) (resolveVars : String → VarMap → String)
    (step : Step) (config : RequestStepConfig) (vars : VarMap) (bu : Option String)
    (vu it : ℕ) (ts : ℤ)
    (hcfg : step.requestConfig = some config)
    (hm : toUpperAscii config.method ∉ ["GET", "POST", "PUT", "DELETE", "PATCH"]) :
    loadBuilderMethod (toUpperAscii config.method) = "GET"
    ∧ (∀ resp el,
        send "GET" (resolve_url_load (resolveVars config.url vars) bu) = (some resp, el) →
        (execute_request_step_load send resolveVars step vars bu vu it ts).1
          = { step_id := step.id, step_name := step.name
              method := toUpperAscii config.method
              url := resolve_url_load (resolveVars config.url vars) bu
              status := resp.status, duration_ms := resp.elapsed_ms
              success := is2xx resp.status
              vu_id := vu, iteration := it, timestamp := ts })
    ∧ (∀ el,
        send "GET" (resolve_url_load (resolveVars config.url vars) bu) = (none, el) →
        (execute_request_step_load send resolveVars step vars bu vu it ts).1
          = { step_id := step.id, step_name := step.name
              method := toUpperAscii config.method
              url := resolve_url_load (resolveVars config.url vars) bu
              status := 0, duration_ms := el, success := false
              vu_id := vu, iteration := it, timestamp := ts })
    ∧ scenarioBuilderMethod (toUpperAscii config.method)
        = .error ("Unsupported method: " ++ toUpperAscii config.method) := by
  simp only [List.mem_cons, List.not_mem_nil, or_false, not_or] at hm
  obtain ⟨h1, h2, h3, h4, h5⟩ := hm
  have hlb : loadBuilderMethod (toUpperAscii config.method) = "GET" := by
    unfold loadBuilderMethod
    rw [if_neg h1, if_neg h2, if_neg h3, if_neg h4, if_neg h5]
  refine ⟨hlb, ?_, ?_, ?_⟩
  · intro resp el hsend
    simp only [execute_request_step_load, hcfg, hlb, hsend]
  · intro el hsend
    simp only [execute_request_step_load, hcfg, hlb, hsend]
  · unfold scenarioBuilderMethod
    rw [if_neg h1, if_neg h2, if_neg h3, if_neg h4, if_neg h5]

/-- Witness for claim C9 at the method name brew and a 200 transport. -/
theorem claim_C9_witness :
    (toUpperAscii "brew" ∉ ["GET", "POST", "PUT", "DELETE", "PATCH"])
    ∧ loadBuilderMethod (toUpperAscii "brew") = "GET"
    ∧ (execute_request_step_load cexSendOk (fun s _ => s) cexBrewStep [] none 1 1 0).1
        = { step_id := cexBrewStep.id, step_name := cexBrewStep.name
            method := toUpperAscii "brew"
            url := resolve_url_load "/brew" none
            status := 200, duration_ms := 7, success := is2xx 200
            vu_id := 1, iteration := 1, timestamp := 0 }
    ∧ scenarioBuilderMethod (toUpperAscii "brew")
        = .error ("Unsupported method: " ++ toUpperAscii "brew") :=
  ⟨by decide,
   (claim_C9 cexSendOk (fun s _ => s) cexBrewStep _ [] none 1 1 0 rfl (by decide)).1,
   (claim_C9 cexSendOk (fun s _ => s) cexBrewStep _ [] none 1 1 0 rfl (by decide)).2.1
     { status := 200, body := Json.null, elapsed_ms := 7 } 7 rfl,
   (claim_C9 cexSendOk (fun s _ => s) cexBrewStep _ [] none 1 1 0 rfl (by decide)).2.2.2⟩
